import Mathlib

/-
Verification of the scoring core of the financial-telegram-monitor repository.

The development shallowly embeds the two analytical engines of the repository:
the rule-based risk scorer (src/api/core/risk_analyzer.py, class RiskAnalyzer)
and the trainable anomaly detector (fraud_detection/anomaly_detection.py,
class AnomalyDetector).  Python strings are embedded as lists of characters,
Python floats as rationals, Python dictionaries with optional keys as
structures with Option fields, and the in-place mutation of the detector
object as explicit state passing.  The regular expressions used by the code
all belong to a tiny sublanguage (literal chunks joined by the dot-star
wildcard, where the dot does not match a newline, exactly as in Python's re
module); that sublanguage is embedded executably below.
-/

set_option maxRecDepth 10000

/-- A Python string, embedded as its list of characters. -/
abbrev PyStr := List Char

/-- Embedding of Python str.lower restricted to the alphabet the repository
uses (ASCII); Char.toLower lowercases exactly the ASCII uppercase letters. -/
def lowerStr (s : PyStr) : PyStr := s.map Char.toLower

/-
Regular-expression sublanguage: every pattern in the repository is a list of
literal chunks implicitly joined by dot-star.  A pattern [c1, c2, ..., cn]
stands for the Python regex c1.*c2.*...*cn; the gaps may hold any characters
except a newline (Python's dot).  re.search succeeds iff the pattern matches
starting at some position of the subject.
-/

/-- Backtracking over one dot-star gap: try the continuation at the current
position, else step over one non-newline character and retry. -/
def gapSearch (next : PyStr → Bool) : PyStr → Bool
  | [] => next []
  | c :: t => next (c :: t) || (!(c == '\n') && gapSearch next t)

/-- Match a list of chunks against s, where the first chunk must be reachable
from the head of s through a gap of non-newline characters (the dot-star of
the regex), and every later chunk likewise follows the previous one after a
non-newline gap.  Full backtracking over all gap widths. -/
def chunksGap : List PyStr → PyStr → Bool
  | [], _ => true
  | c :: cs, s =>
    gapSearch (fun v => List.isPrefixOf c v && chunksGap cs (v.drop c.length)) s

/-- Match a list of chunks with the first chunk anchored at the head of s
(later chunks separated by non-newline gaps). -/
def chunksAt (chunks : List PyStr) (s : PyStr) : Bool :=
  match chunks with
  | [] => true
  | c :: cs => List.isPrefixOf c s && chunksGap cs (s.drop c.length)

/-- Embedding of Python re.search for the chunk sublanguage: the match may
start at any position of the subject. -/
def reSearch (chunks : List PyStr) : PyStr → Bool
  | [] => chunksAt chunks []
  | s@(_ :: t) => chunksAt chunks s || reSearch chunks t

/-- Embedding of the Python substring test (the in operator on str). -/
def pyContains (p : PyStr) : PyStr → Bool
  | [] => List.isPrefixOf p []
  | s@(_ :: t) => List.isPrefixOf p s || pyContains p t

/-
RiskAnalyzer (src/api/core/risk_analyzer.py).
-/

/-- One entry of RiskAnalyzer.risk_patterns: the dictionary key, the value
produced from the key by replace and title (used for risk_factors), the
compiled patterns, and the weight. -/
structure RiskCategory where
  name : String
  title : String
  patterns : List (List PyStr)
  weight : ℚ

/-- risk_patterns entry guaranteed_returns (weight 0.8). -/
def guaranteed_returns : RiskCategory :=
  { name := "guaranteed_returns", title := "Guaranteed Returns",
    patterns := [["guaranteed".toList, "return".toList],
                 ["100%".toList, "profit".toList],
                 ["risk".toList, "free".toList]],
    weight := 8/10 }

/-- risk_patterns entry urgency_pressure (weight 0.6). -/
def urgency_pressure : RiskCategory :=
  { name := "urgency_pressure", title := "Urgency Pressure",
    patterns := [["limited".toList, "time".toList],
                 ["act".toList, "now".toList],
                 ["hurry".toList],
                 ["expires".toList, "soon".toList]],
    weight := 6/10 }

/-- risk_patterns entry unrealistic_claims (weight 0.7). -/
def unrealistic_claims : RiskCategory :=
  { name := "unrealistic_claims", title := "Unrealistic Claims",
    patterns := [["miracle".toList, "cure".toList],
                 ["instant".toList, "results".toList],
                 ["amazing".toList, "results".toList]],
    weight := 7/10 }

/-- risk_patterns entry contact_requests (weight 0.5). -/
def contact_requests : RiskCategory :=
  { name := "contact_requests", title := "Contact Requests",
    patterns := [["dm".toList, "me".toList],
                 ["private".toList, "message".toList],
                 ["whatsapp".toList],
                 ["telegram".toList, "@".toList]],
    weight := 5/10 }

/-- risk_patterns entry price_manipulation (weight 0.4). -/
def price_manipulation : RiskCategory :=
  { name := "price_manipulation", title := "Price Manipulation",
    patterns := [["special".toList, "price".toList],
                 ["discount".toList, "today".toList],
                 ["50%".toList, "off".toList]],
    weight := 4/10 }

/-- RiskAnalyzer.risk_patterns, in dictionary (registry) order. -/
def risk_patterns : List RiskCategory :=
  [guaranteed_returns, urgency_pressure, unrealistic_claims,
   contact_requests, price_manipulation]

/-- RiskAnalyzer.medical_products. -/
def medical_products : List String :=
  ["paracetamol", "ibuprofen", "aspirin", "antibiotic", "vaccine",
   "insulin", "cream", "pills", "tablets", "capsules", "syrup",
   "injection", "medicine", "drug", "pharmaceutical"]

/-- The inner loop of calculate_risk_score: the category fires when some of
its patterns matches the lowercased text (the loop breaks at the first
matching pattern, which only determines that the category counts once). -/
def anyPattern (pats : List (List PyStr)) (tl : PyStr) : Bool :=
  pats.any (fun p => reSearch p tl)

/-- RiskAnalyzer.calculate_risk_score: fold over the registry accumulating
(risk_factors, total_risk); detect medical products by substring membership;
clip the total to 1.0.  Returns (risk_score, detected_products,
risk_factors) exactly as the Python tuple. -/
def calculate_risk_score (text : PyStr) : ℚ × List String × List String :=
  let tl := lowerStr text
  let fr := risk_patterns.foldl
    (fun acc cat =>
      if anyPattern cat.patterns tl then (acc.1 ++ [cat.title], acc.2 + cat.weight)
      else acc)
    ([], 0)
  let detected_products := medical_products.filter (fun p => pyContains p.toList tl)
  (min fr.2 1, detected_products, fr.1)

/-- RiskAnalyzer.get_risk_level. -/
def get_risk_level (risk_score : ℚ) : String :=
  if risk_score ≥ 7/10 then "HIGH"
  else if risk_score ≥ 4/10 then "MEDIUM"
  else "LOW"

/-
AnomalyDetector (fraud_detection/anomaly_detection.py).

A message record is a Python dictionary read with msg.get; keys that may be
absent become Option fields.
-/

/-- One input message record. -/
structure Msg where
  id : Option Int := none
  text : PyStr := []
  channel : Option String := none
  date : Option PyStr := none
  has_media : Bool := false

/-- Count of one character in a text (Python str.count for a one-character
argument). -/
def countChar (c : Char) (s : PyStr) : Nat := s.countP (fun x => x == c)

/-- Characters Python str.split splits on (ASCII whitespace). -/
def pyIsSpace (c : Char) : Bool :=
  List.contains [' ', '\t', '\n', '\r', '\x0b', '\x0c'] c

/-- Helper for wordCount: counts maximal non-whitespace runs; the flag
records whether the previous character was inside a word. -/
def countRuns : PyStr → Bool → Nat
  | [], _ => 0
  | c :: t, inw =>
    if pyIsSpace c then countRuns t false
    else (if inw then 0 else 1) + countRuns t true

/-- len(text.split()): the number of maximal whitespace-separated words. -/
def wordCount (s : PyStr) : Nat := countRuns s false

/-- Number of ASCII uppercase letters (Python c.isupper over the ASCII range
the repository's data uses). -/
def upperCount (s : PyStr) : Nat := s.countP Char.isUpper

/-- Number of decimal digits (Python c.isdigit over ASCII). -/
def digitCount (s : PyStr) : Nat := s.countP Char.isDigit

/-- Character class of the URL regex of extract_features: the union of the
alternatives a-zA-Z, 0-9, dollar-to-underscore, and the extra punctuation
(every listed punctuation character other than the exclamation mark already
lies in the dollar-to-underscore range, and a lone percent sign does too). -/
def urlClass (c : Char) : Bool :=
  c == '!' || (36 ≤ c.toNat && c.toNat ≤ 95) || (97 ≤ c.toNat && c.toNat ≤ 122)

/-- Length of the maximal prefix run of URL-class characters. -/
def urlRun : PyStr → Nat
  | [] => 0
  | c :: t => if urlClass c then urlRun t + 1 else 0

/-- len(re.findall(urlPattern, text)): scan left to right; at each position
a match needs the literal scheme prefix followed by at least one URL-class
character; the greedy plus consumes the maximal run, and scanning resumes
after the consumed match (findall is non-overlapping). -/
def urlCount : PyStr → Nat
  | [] => 0
  | c :: t =>
    if List.isPrefixOf "https://".toList (c :: t) && 0 < urlRun ((c :: t).drop 8) then
      1 + urlCount (((c :: t).drop 8).drop (urlRun ((c :: t).drop 8)))
    else if List.isPrefixOf "http://".toList (c :: t) && 0 < urlRun ((c :: t).drop 7) then
      1 + urlCount (((c :: t).drop 7).drop (urlRun ((c :: t).drop 7)))
    else urlCount t
termination_by s => s.length
decreasing_by
  · simp only [List.length_drop, List.length_cons]
    omega
  · simp only [List.length_drop, List.length_cons]
    omega
  · simp only [List.length_cons]
    omega

/-- len(re.findall(lit, s)) for a literal pattern: leftmost, non-overlapping
occurrence count.  An empty pattern matches at every position, as in re. -/
def countOccur (p : PyStr) : PyStr → Nat
  | [] => if p.isEmpty then 1 else 0
  | c :: t =>
    if h : p.isEmpty then 1 + countOccur p t
    else if List.isPrefixOf p (c :: t) then 1 + countOccur p ((c :: t).drop p.length)
    else countOccur p t
termination_by s => s.length
decreasing_by
  all_goals simp only [List.length_drop, List.length_cons]
  all_goals first
    | omega
    | (have hp : 0 < p.length := by
         cases p with
         | nil => simp [List.isEmpty] at h
         | cons a l => simp
       omega)

/-- AnomalyDetector.suspicious_patterns: category name with its literal
patterns, in dictionary (registry) order.  None of these patterns contains a
regex metacharacter, so re.search on them is substring search and re.findall
counts literal occurrences. -/
def suspicious_patterns : List (String × List PyStr) :=
  [("urgency",
    ["urgent".toList, "limited time".toList, "act now".toList, "expires soon".toList]),
   ("financial_promises",
    ["guaranteed".toList, "100%".toList, "risk free".toList, "instant profit".toList]),
   ("contact_pressure",
    ["dm me".toList, "private message".toList, "whatsapp".toList, "call now".toList]),
   ("medical_claims",
    ["miracle cure".toList, "instant healing".toList, "100% effective".toList]),
   ("price_manipulation",
    ["special price".toList, "discount".toList, "50% off".toList, "limited offer".toList])]

/-- The category_score feature: total occurrence count of the category's
patterns in the lowercased text. -/
def catScore (pats : List PyStr) (tl : PyStr) : Nat :=
  (pats.map (fun p => countOccur p tl)).sum

/-
Embedding of datetime.fromisoformat as used on line 71 of
fraud_detection/anomaly_detection.py: the strict ISO-8601 subset accepted by
the standard library (date YYYY-MM-DD, optional one-character separator and
time HH[:MM[:SS[.fff or .ffffff]]], optional numeric UTC offset), after the
code's replacement of Z by +00:00.  Only acceptance, the hour and the
calendar date matter downstream (via the hour and weekday attributes).
-/

/-- The parsed datetime value (attributes the code reads). -/
structure PyDateTime where
  year : Nat
  month : Nat
  day : Nat
  hour : Nat
  minute : Nat
  second : Nat
deriving DecidableEq

/-- Read exactly n ASCII digits into an accumulator. -/
def readDigits : Nat → Nat → PyStr → Option (Nat × PyStr)
  | 0, acc, s => some (acc, s)
  | _ + 1, _, [] => none
  | n + 1, acc, c :: t =>
    if c.isDigit then readDigits n (acc * 10 + (c.toNat - 48)) t else none

/-- Consume one expected character. -/
def expectChar (c : Char) : PyStr → Option PyStr
  | [] => none
  | x :: t => if x == c then some t else none

/-- Gregorian leap year. -/
def isLeapYear (y : Nat) : Bool := (y % 4 == 0 && y % 100 != 0) || y % 400 == 0

/-- Length of a month. -/
def monthLength (y m : Nat) : Nat :=
  if m = 2 then (if isLeapYear y then 29 else 28)
  else if m = 4 ∨ m = 6 ∨ m = 9 ∨ m = 11 then 30 else 31

/-- Days in the months before month m of year y. -/
def daysBeforeMonth (y m : Nat) : Nat :=
  (List.range (m - 1)).foldl (fun a i => a + monthLength y (i + 1)) 0

/-- Day number of a proleptic-Gregorian date counted from 0001-01-01 = 0. -/
def toOrdinal (y m d : Nat) : Nat :=
  365 * (y - 1) + (y - 1) / 4 - (y - 1) / 100 + (y - 1) / 400 +
    daysBeforeMonth y m + (d - 1)

/-- datetime.weekday: Monday = 0 through Sunday = 6; 0001-01-01 was a
Monday in the proleptic Gregorian calendar. -/
def pyWeekday (y m d : Nat) : Nat := toOrdinal y m d % 7

/-- Skip an optional fractional-seconds part (a dot followed by exactly
three or six digits). -/
def skipFraction (r : PyStr) : Option PyStr :=
  match r with
  | '.' :: rest =>
    let ds := rest.takeWhile Char.isDigit
    if ds.length = 3 ∨ ds.length = 6 then some (rest.drop ds.length) else none
  | _ => some r

/-- Validate a trailing UTC-offset suffix (possibly empty). -/
def parseOffset (r : PyStr) : Option Unit :=
  match r with
  | [] => some ()
  | c :: rest =>
    if c == '+' || c == '-' then do
      let (oh, r1) ← readDigits 2 0 rest
      let r2 ← expectChar ':' r1
      let (om, r3) ← readDigits 2 0 r2
      if 23 < oh ∨ 59 < om then none
      else
        match r3 with
        | [] => some ()
        | ':' :: r4 => do
          let (os, r5) ← readDigits 2 0 r4
          let r6 ← skipFraction r5
          if 59 < os ∨ r6 ≠ [] then none else some ()
        | _ => none
    else none

/-- Parse the time-of-day part after the separator, then a possible offset. -/
def parseTimePart (y mo d : Nat) (rest : PyStr) : Option PyDateTime := do
  let (h, r1) ← readDigits 2 0 rest
  if 23 < h then none
  else
    match r1 with
    | [] => some ⟨y, mo, d, h, 0, 0⟩
    | ':' :: r2 => do
      let (mi, r3) ← readDigits 2 0 r2
      if 59 < mi then none
      else
        match r3 with
        | [] => some ⟨y, mo, d, h, mi, 0⟩
        | ':' :: r4 => do
          let (ss, r5) ← readDigits 2 0 r4
          if 59 < ss then none
          else do
            let r6 ← skipFraction r5
            let _ ← parseOffset r6
            some ⟨y, mo, d, h, mi, ss⟩
        | _ => do
          let _ ← parseOffset r3
          some ⟨y, mo, d, h, mi, 0⟩
    | _ => do
      let _ ← parseOffset r1
      some ⟨y, mo, d, h, 0, 0⟩

/-- datetime.fromisoformat on the repository's inputs. -/
def fromisoformat (s : PyStr) : Option PyDateTime := do
  let (y, s1) ← readDigits 4 0 s
  let s2 ← expectChar '-' s1
  let (mo, s3) ← readDigits 2 0 s2
  let s4 ← expectChar '-' s3
  let (d, s5) ← readDigits 2 0 s4
  if y < 1 ∨ mo < 1 ∨ 12 < mo ∨ d < 1 ∨ monthLength y mo < d then none
  else
    match s5 with
    | [] => some ⟨y, mo, d, 0, 0, 0⟩
    | _ :: rest => parseTimePart y mo d rest

/-- The code's date preprocessing: msg date string with every Z replaced by
+00:00 before parsing. -/
def replaceZ : PyStr → PyStr
  | [] => []
  | c :: t =>
    if c == 'Z' then '+' :: '0' :: '0' :: ':' :: '0' :: '0' :: replaceZ t
    else c :: replaceZ t

/-- One row of the feature table built by AnomalyDetector.extract_features.
The three temporal fields are Option because the Python code adds those
dictionary keys only inside the branch guarded by the date-key test. -/
structure FeatureRow where
  text_length : Nat
  word_count : Nat
  exclamation_count : Nat
  question_count : Nat
  caps_ratio : ℚ
  digit_ratio : ℚ
  url_count : Nat
  mention_count : Nat
  hashtag_count : Nat
  has_media : Nat
  urgency_score : Nat
  financial_promises_score : Nat
  contact_pressure_score : Nat
  medical_claims_score : Nat
  price_manipulation_score : Nat
  hour : Option Nat
  day_of_week : Option Nat
  is_weekend : Option Nat
deriving DecidableEq

/-- The feature dictionary extract_features builds for one message. -/
def featureRow (m : Msg) : FeatureRow :=
  let text := m.text
  let tl := lowerStr text
  let temporal : Option Nat × Option Nat × Option Nat :=
    match m.date with
    | none => (none, none, none)
    | some d =>
      match fromisoformat (replaceZ d) with
      | some dt =>
        let w := pyWeekday dt.year dt.month dt.day
        (some dt.hour, some w, some (if 5 ≤ w then 1 else 0))
      | none => (some 12, some 1, some 0)
  { text_length := text.length
    word_count := wordCount text
    exclamation_count := countChar '!' text
    question_count := countChar '?' text
    caps_ratio := (upperCount text : ℚ) / (max text.length 1 : ℚ)
    digit_ratio := (digitCount text : ℚ) / (max text.length 1 : ℚ)
    url_count := urlCount text
    mention_count := countChar '@' text
    hashtag_count := countChar '#' text
    has_media := if m.has_media then 1 else 0
    urgency_score := catScore (suspicious_patterns.get ⟨0, by simp [suspicious_patterns]⟩).2 tl
    financial_promises_score := catScore (suspicious_patterns.get ⟨1, by simp [suspicious_patterns]⟩).2 tl
    contact_pressure_score := catScore (suspicious_patterns.get ⟨2, by simp [suspicious_patterns]⟩).2 tl
    medical_claims_score := catScore (suspicious_patterns.get ⟨3, by simp [suspicious_patterns]⟩).2 tl
    price_manipulation_score := catScore (suspicious_patterns.get ⟨4, by simp [suspicious_patterns]⟩).2 tl
    hour := temporal.1
    day_of_week := temporal.2.1
    is_weekend := temporal.2.2 }

/-- AnomalyDetector.extract_features: one feature row per message, in input
order. -/
def extract_features (messages : List Msg) : List FeatureRow :=
  messages.map featureRow

/-
Detector state and the train / detect_anomalies operations.  The sklearn
estimators held in the AnomalyDetector's fields are external library
objects; they are embedded as opaque fitted values (the fitted scaler as its
row transform, the fitted forest as its per-row decision function), and the
fitting calls as caller-supplied functions that may raise.  A Python
exception is an Except error; in-place mutation of self becomes explicit
state passing that returns the state as mutated up to the point where the
exception left the method.
-/

/-- A raised Python exception: either one of the ValueError raises written
in anomaly_detection.py itself, or an error escaping a library call. -/
inductive PyErr where
  | valueError (msg : String)
  | libError (msg : String)
deriving DecidableEq

/-- A fitted TfidfVectorizer.  The fitted vectorizer is never consulted
again by the code (the tfidf features are computed during train and
discarded), so only its identity matters. -/
abbrev VecM := Nat

/-- A fitted StandardScaler: its transform acts row by row. -/
structure ScalerM where
  transformRow : FeatureRow → List ℚ

/-- A fitted IsolationForest: decision_function acts row by row. -/
structure ForestM where
  decision : List ℚ → ℚ

/-- The mutable fields of an AnomalyDetector object.  In __init__ the three
estimators exist but are unfitted, which the embedding renders as none. -/
structure DetectorState where
  vectorizer : Option VecM
  scaler : Option ScalerM
  forest : Option ForestM
  is_trained : Bool

/-- AnomalyDetector.__init__. -/
def initState : DetectorState :=
  { vectorizer := none, scaler := none, forest := none, is_trained := false }

/-- The behavior of the library fitting calls made by train, supplied by
the environment: fitting the vectorizer on the raw texts, the scaler on the
feature table, and the forest on the scaled table; each may raise. -/
structure SkLib where
  vecFit : List PyStr → Except String VecM
  scalerFit : List FeatureRow → Except String ScalerM
  forestFit : List (List ℚ) → Except String ForestM

/-- The ValueError message of the training-size guard. -/
def insufficientErr : PyErr :=
  .valueError "Need at least 10 messages to train the model"

/-- The ValueError message of the untrained-inference guard. -/
def notTrainedErr : PyErr :=
  .valueError "Model must be trained before detecting anomalies"

/-- AnomalyDetector.train: the guard, then the three fitting steps in
program order, each mutating its field in place; an exception leaves the
fields already assigned in their new state, and is_trained becomes true
only on the final line. -/
def train (lib : SkLib) (st : DetectorState) (messages : List Msg) :
    DetectorState × Except PyErr Unit :=
  if messages.length < 10 then
    (st, .error insufficientErr)
  else
    match lib.vecFit (messages.map (fun m => m.text)) with
    | .error e => (st, .error (.libError e))
    | .ok vec =>
      match lib.scalerFit (extract_features messages) with
      | .error e => ({ st with vectorizer := some vec }, .error (.libError e))
      | .ok sc =>
        match lib.forestFit ((extract_features messages).map sc.transformRow) with
        | .error e =>
          ({ st with vectorizer := some vec, scaler := some sc },
           .error (.libError e))
        | .ok f =>
          ({ st with
              vectorizer := some vec, scaler := some sc,
              forest := some f, is_trained := true }, .ok ())

/-- Modelled from the spec: scikit-learn's IsolationForest.predict, which is
not part of this repository, labels a sample anomalous (value -1) exactly
when its decision_function value falls on the anomalous side of the frozen
decision offset, i.e. is negative (spec section 4.2: label true iff the
score falls on the anomalous side of the frozen decision offset). -/
def predictLabel (f : ForestM) (x : List ℚ) : Int :=
  if f.decision x < 0 then -1 else 1

/-- AnomalyDetector._get_risk_level. -/
def anomaly_get_risk_level (score : ℚ) : String :=
  if score < -(2/10) then "HIGH"
  else if score < 0 then "MEDIUM"
  else "LOW"

/-- AnomalyDetector._identify_patterns: the categories, in registry order,
with at least one pattern matching the lowercased text (the inner loop
breaks at the first matching pattern, so each category appears once). -/
def identify_patterns (text : PyStr) : List String :=
  let tl := lowerStr text
  (suspicious_patterns.filter (fun cp => cp.2.any (fun p => reSearch [p] tl))).map
    (fun cp => cp.1)

/-- The text truncation applied to the result record. -/
def truncText (t : PyStr) : PyStr :=
  if 200 < t.length then t.take 200 ++ "...".toList else t

/-- One result dictionary of detect_anomalies. -/
structure ResultRec where
  message_id : Int
  text : PyStr
  channel : String
  date : PyStr
  anomaly_score : ℚ
  is_anomaly : Bool
  risk_level : String
  suspicious_patterns : List String
deriving DecidableEq

/-- The result record built for the message at stream position i. -/
def mkResult (sc : ScalerM) (f : ForestM) (i : Nat) (m : Msg) : ResultRec :=
  let x := sc.transformRow (featureRow m)
  let score := f.decision x
  { message_id := m.id.getD i
    text := truncText m.text
    channel := m.channel.getD "unknown"
    date := m.date.getD []
    anomaly_score := score
    is_anomaly := predictLabel f x == -1
    risk_level := anomaly_get_risk_level score
    suspicious_patterns := identify_patterns m.text }

/-- The result list in input order, one record per message, built by the
enumerate loop of detect_anomalies. -/
def resultsInOrder (sc : ScalerM) (f : ForestM) (messages : List Msg) :
    List ResultRec :=
  messages.enum.map (fun p => mkResult sc f p.1 p.2)

/-- results.sort(key=anomaly_score): Python's stable ascending sort,
embedded as the stable insertion sort (stable ascending sorts agree on
every input). -/
def sortResults (rs : List ResultRec) : List ResultRec :=
  List.insertionSort (fun a b => a.anomaly_score ≤ b.anomaly_score) rs

/-- AnomalyDetector.detect_anomalies.  The unreachable fallback (trained
flag set while an estimator is unfitted) is the library's not-fitted
error. -/
def detect_anomalies (st : DetectorState) (messages : List Msg) :
    Except PyErr (List ResultRec) :=
  if st.is_trained = false then .error notTrainedErr
  else
    match st.scaler, st.forest with
    | some sc, some f => .ok (sortResults (resultsInOrder sc f messages))
    | _, _ => .error (.libError "estimator instance is not fitted yet")

/-- detect_anomalies as a state transition: the method reads the detector
object but assigns none of its fields, so the state component it returns is
the state it was given. -/
def detectRun (st : DetectorState) (messages : List Msg) :
    Except PyErr (List ResultRec) × DetectorState :=
  (detect_anomalies st messages, st)

/-- The anomaly-score column of a detection outcome. -/
def outcomeScores : Except PyErr (List ResultRec) → Option (List ℚ)
  | .ok rs => some (rs.map (fun r => r.anomaly_score))
  | .error _ => none

/-- The is_anomaly column of a detection outcome. -/
def outcomeLabels : Except PyErr (List ResultRec) → Option (List Bool)
  | .ok rs => some (rs.map (fun r => r.is_anomaly))
  | .error _ => none

/-
AnomalyDetector.analyze_channel_behavior.
-/

/-- pattern_counts[pattern] = pattern_counts.get(pattern, 0) + 1 on a Python
dict embedded as an insertion-ordered association list: an existing key is
incremented in place, a new key is appended at the end. -/
def bump (k : String) : List (String × Nat) → List (String × Nat)
  | [] => [(k, 1)]
  | (k', n) :: t => if k' = k then (k', n + 1) :: t else (k', n) :: bump k t

/-- The pattern-frequency dict of analyze_channel_behavior: every category
occurrence in every result's suspicious_patterns list bumps its counter, in
stream order. -/
def patternCounts (rs : List ResultRec) : List (String × Nat) :=
  rs.foldl (fun acc r => r.suspicious_patterns.foldl (fun a p => bump p a) acc) []

/-- sorted(pattern_counts.items(), key=count, reverse=True)[:3]: Python's
stable descending sort by count (ties keep dict insertion order), then the
first three. -/
def topPatterns (counts : List (String × Nat)) : List (String × Nat) :=
  (List.insertionSort (fun a b => b.2 ≤ a.2) counts).take 3

/-- The per-channel analysis dictionary. -/
structure ChannelStats where
  total_messages : Nat
  anomalous_messages : Nat
  high_risk_messages : Nat
  anomaly_rate : ℚ
  avg_anomaly_score : ℚ
  top_patterns : List (String × Nat)
  most_anomalous : List ResultRec
deriving DecidableEq

/-- The channel_analysis entry built from one channel's messages and its
detection results. -/
def mkStats (messages : List Msg) (anomalies : List ResultRec) : ChannelStats :=
  { total_messages := messages.length
    anomalous_messages := (anomalies.filter (fun a => a.is_anomaly)).length
    high_risk_messages := (anomalies.filter (fun a => a.risk_level = "HIGH")).length
    anomaly_rate := ((anomalies.filter (fun a => a.is_anomaly)).length : ℚ) / (messages.length : ℚ)
    avg_anomaly_score := (anomalies.map (fun a => a.anomaly_score)).sum / (anomalies.length : ℚ)
    top_patterns := topPatterns (patternCounts anomalies)
    most_anomalous := anomalies.take 3 }

/-- AnomalyDetector.analyze_channel_behavior over an insertion-ordered
channel dictionary: channels with fewer than 5 messages are skipped; an
exception raised by detect_anomalies (e.g. on an untrained model)
propagates out of the whole loop. -/
def analyze_channel_behavior (st : DetectorState)
    (channel_messages : List (String × List Msg)) :
    Except PyErr (List (String × ChannelStats)) :=
  match channel_messages with
  | [] => .ok []
  | (ch, messages) :: rest =>
    if messages.length < 5 then analyze_channel_behavior st rest
    else
      match detect_anomalies st messages with
      | .error e => .error e
      | .ok anomalies =>
        match analyze_channel_behavior st rest with
        | .error e => .error e
        | .ok out => .ok ((ch, mkStats messages anomalies) :: out)

/-- The presence-weighted sum the specification describes: the sum, over the
registry, of the weight of every category with at least one matching pattern
against the lowercased text. -/
def matchedWeightSum (text : PyStr) : ℚ :=
  (risk_patterns.map
    (fun cat => if anyPattern cat.patterns (lowerStr text) then cat.weight else 0)).sum

/-- Claim C1: for every input text the rule engine's risk score equals
min(1, sum of the weights of the categories having at least one pattern
matching the lowercased text) for the weight table 0.8/0.6/0.7/0.5/0.4, and
the returned score always lies in the interval [0, 1]. -/
theorem c1_presence_weighted_score (text : PyStr) :
    (calculate_risk_score text).1 = min 1 (matchedWeightSum text) ∧
    0 ≤ (calculate_risk_score text).1 ∧ (calculate_risk_score text).1 ≤ 1 := by
  simp only [calculate_risk_score, matchedWeightSum, risk_patterns,
    List.foldl_cons, List.foldl_nil, List.map_cons, List.map_nil,
    List.sum_cons, List.sum_nil]
  rcases h1 : anyPattern guaranteed_returns.patterns (lowerStr text) <;>
    rcases h2 : anyPattern urgency_pressure.patterns (lowerStr text) <;>
      rcases h3 : anyPattern unrealistic_claims.patterns (lowerStr text) <;>
        rcases h4 : anyPattern contact_requests.patterns (lowerStr text) <;>
          rcases h5 : anyPattern price_manipulation.patterns (lowerStr text) <;>
            simp only [h1, h2, h3, h4, h5, if_true, if_false,
              Bool.false_eq_true, Bool.true_eq_false, guaranteed_returns,
              urgency_pressure, unrealistic_claims, contact_requests,
              price_manipulation] <;>
              norm_num [min_def]

/-- Claim C7: the anomaly-model risk level is a total function of the score
with fixed thresholds: HIGH iff score < -0.2, MEDIUM iff -0.2 <= score < 0,
LOW iff score >= 0; in particular -0.5 maps to HIGH, -0.1 to MEDIUM and 0.1
to LOW. -/
theorem c7_risk_level_thresholds :
    (∀ s : ℚ,
      (anomaly_get_risk_level s = "HIGH" ↔ s < -(2/10)) ∧
      (anomaly_get_risk_level s = "MEDIUM" ↔ (-(2/10) ≤ s ∧ s < 0)) ∧
      (anomaly_get_risk_level s = "LOW" ↔ 0 ≤ s)) ∧
    anomaly_get_risk_level (-(5/10)) = "HIGH" ∧
    anomaly_get_risk_level (-(1/10)) = "MEDIUM" ∧
    anomaly_get_risk_level (1/10) = "LOW" := by
  refine ⟨fun s => ?_, by norm_num [anomaly_get_risk_level],
    by norm_num [anomaly_get_risk_level], by norm_num [anomaly_get_risk_level]⟩
  unfold anomaly_get_risk_level
  split_ifs with h1 h2
  · exact ⟨⟨fun _ => h1, fun _ => rfl⟩,
      ⟨fun h => absurd h (by decide), fun h => by linarith [h.1]⟩,
      ⟨fun h => absurd h (by decide), fun h => by linarith⟩⟩
  · exact ⟨⟨fun h => absurd h (by decide), fun h => by linarith⟩,
      ⟨fun _ => ⟨by linarith, h2⟩, fun _ => rfl⟩,
      ⟨fun h => absurd h (by decide), fun h => by linarith⟩⟩
  · exact ⟨⟨fun h => absurd h (by decide), fun h => by linarith⟩,
      ⟨fun h => absurd h (by decide), fun h => by linarith [h.2]⟩,
      ⟨fun _ => by linarith, fun _ => rfl⟩⟩

/-- Claim C7 witness: the HIGH characterization applied at the concrete
score -1. -/
theorem c7_risk_level_thresholds_witness :
    anomaly_get_risk_level (-1) = "HIGH" :=
  ((c7_risk_level_thresholds.1 (-1)).1).mpr (by norm_num)

/-- Claim C9: for every message, including one with empty text, the
caps_ratio and digit_ratio features divide the character counts by
max(length, 1), a strictly positive denominator, so the division never
divides by zero. -/
theorem c9_ratio_denominator_positive (m : Msg) :
    0 < max m.text.length 1 ∧
    (featureRow m).caps_ratio = (upperCount m.text : ℚ) / (max m.text.length 1 : ℚ) ∧
    (featureRow m).digit_ratio = (digitCount m.text : ℚ) / (max m.text.length 1 : ℚ) ∧
    (featureRow m).caps_ratio * (max m.text.length 1 : ℚ) = (upperCount m.text : ℚ) ∧
    (featureRow m).digit_ratio * (max m.text.length 1 : ℚ) = (digitCount m.text : ℚ) := by
  have hden : (max (m.text.length : ℚ) 1) ≠ 0 :=
    ne_of_gt (lt_of_lt_of_le zero_lt_one (le_max_right _ _))
  refine ⟨lt_of_lt_of_le Nat.zero_lt_one (le_max_right _ _), rfl, rfl, ?_, ?_⟩
  · exact div_mul_cancel₀ _ hden
  · exact div_mul_cancel₀ _ hden

/-- Claim C2 counterexample: a message record without a timestamp yields a
feature row in which the three temporal columns are absent, not defaulted,
so not every extracted feature row contains them. -/
theorem c2_counterexample_missing_date :
    (extract_features [{ text := "hello".toList }]).map (fun r => r.hour) = [none] ∧
    (extract_features [{ text := "hello".toList }]).map (fun r => r.day_of_week) = [none] ∧
    (extract_features [{ text := "hello".toList }]).map (fun r => r.is_weekend) = [none] :=
  ⟨rfl, rfl, rfl⟩

/-- Claim C2 (amended): the temporal features are produced only when the
record carries a timestamp; an unparsable timestamp silently yields the
defaults hour=12, day_of_week=1, is_weekend=0, a parsable one yields the
parsed hour and weekday, and a missing timestamp leaves all three columns
absent from the row. -/
theorem c2_temporal_defaults (m : Msg) :
    (m.date = none →
      (featureRow m).hour = none ∧ (featureRow m).day_of_week = none ∧
        (featureRow m).is_weekend = none) ∧
    (∀ d, m.date = some d → fromisoformat (replaceZ d) = none →
      (featureRow m).hour = some 12 ∧ (featureRow m).day_of_week = some 1 ∧
        (featureRow m).is_weekend = some 0) ∧
    (∀ d dt, m.date = some d → fromisoformat (replaceZ d) = some dt →
      (featureRow m).hour = some dt.hour ∧
      (featureRow m).day_of_week = some (pyWeekday dt.year dt.month dt.day) ∧
      (featureRow m).is_weekend =
        some (if 5 ≤ pyWeekday dt.year dt.month dt.day then 1 else 0)) ∧
    ((featureRow m).hour.isSome ↔ m.date.isSome) := by
  refine ⟨?_, ?_, ?_, ?_⟩
  · intro hd
    simp [featureRow, hd]
  · intro d hd hp
    simp [featureRow, hd, hp]
  · intro d dt hd hp
    simp [featureRow, hd, hp]
  · rcases hd : m.date with _ | d
    · simp [featureRow, hd]
    · rcases hp : fromisoformat (replaceZ d) with _ | dt <;>
        simp [featureRow, hd, hp]

/-- Claim C2 witness for the amended statement: an unparsable timestamp
yields the defaults, and a well-formed one yields its parsed hour and
weekday (2024-01-06 was a Saturday, weekday 5). -/
theorem c2_temporal_defaults_witness :
    (featureRow { text := "hi".toList, date := some "bogus".toList }).hour = some 12 ∧
    (featureRow { text := "hi".toList, date := some "2024-01-06T09:30:00Z".toList }).hour = some 9 ∧
    (featureRow { text := "hi".toList, date := some "2024-01-06T09:30:00Z".toList }).day_of_week = some 5 :=
  ⟨((c2_temporal_defaults { text := "hi".toList, date := some "bogus".toList }).2.1
      "bogus".toList rfl (by decide)).1,
   ((c2_temporal_defaults { text := "hi".toList, date := some "2024-01-06T09:30:00Z".toList }).2.2.1
      "2024-01-06T09:30:00Z".toList ⟨2024, 1, 6, 9, 30, 0⟩ rfl (by decide)).1,
   ((c2_temporal_defaults { text := "hi".toList, date := some "2024-01-06T09:30:00Z".toList }).2.2.1
      "2024-01-06T09:30:00Z".toList ⟨2024, 1, 6, 9, 30, 0⟩ rfl (by decide)).2.1⟩

/-- Claim C8: inference is deterministic: detect_anomalies reads but never
writes the detector state, so running it twice in sequence on the identical
trained state and identical input yields identical score sequences and
identical label sequences. -/
theorem c8_infer_deterministic (st : DetectorState) (messages : List Msg) :
    (detectRun st messages).2 = st ∧
    outcomeScores (detectRun ((detectRun st messages).2) messages).1 =
      outcomeScores (detectRun st messages).1 ∧
    outcomeLabels (detectRun ((detectRun st messages).2) messages).1 =
      outcomeLabels (detectRun st messages).1 :=
  ⟨rfl, rfl, rfl⟩

/-- A benign library behavior used to instantiate universally quantified
statements about train at concrete inputs. -/
def lib0 : SkLib :=
  { vecFit := fun _ => .ok 0,
    scalerFit := fun _ => .ok ⟨fun _ => []⟩,
    forestFit := fun _ => .ok ⟨fun _ => 0⟩ }

/-- Claim C5: train raises the insufficient-data ValueError exactly when
given fewer than 10 messages, leaving the state unchanged in that case; the
trained flag becomes true exactly through a successful train; and
detect_anomalies raises the not-trained ValueError exactly when the trained
flag is false. -/
theorem c5_training_guards :
    (∀ (lib : SkLib) (st : DetectorState) (messages : List Msg),
      messages.length < 10 →
        train lib st messages = (st, .error insufficientErr)) ∧
    (∀ (lib : SkLib) (st : DetectorState) (messages : List Msg),
      (train lib st messages).2 = .error insufficientErr ↔ messages.length < 10) ∧
    (∀ (lib : SkLib) (st : DetectorState) (messages : List Msg),
      (train lib st messages).2 = .ok () → (train lib st messages).1.is_trained = true) ∧
    (∀ (lib : SkLib) (st : DetectorState) (messages : List Msg),
      (train lib st messages).1.is_trained = true →
        st.is_trained = true ∨ (train lib st messages).2 = .ok ()) ∧
    (∀ (st : DetectorState) (messages : List Msg),
      detect_anomalies st messages = .error notTrainedErr ↔ st.is_trained = false) := by
  refine ⟨?_, ?_, ?_, ?_, ?_⟩
  · intro lib st messages h
    simp [train, h]
  · intro lib st messages
    by_cases hlen : messages.length < 10
    · simp [train, hlen]
    · unfold train
      rw [if_neg hlen]
      refine iff_of_false ?_ hlen
      split
      · simp [insufficientErr]
      · split
        · simp [insufficientErr]
        · split
          · simp [insufficientErr]
          · simp
  · intro lib st messages
    by_cases hlen : messages.length < 10
    · simp [train, hlen]
    · simp only [train, if_neg hlen]
      split
      · simp
      · split
        · simp
        · split
          · simp
          · intro _; rfl
  · intro lib st messages
    by_cases hlen : messages.length < 10
    · simp [train, hlen]
    · simp only [train, if_neg hlen]
      split
      · intro h; exact Or.inl h
      · split
        · intro h; exact Or.inl h
        · split
          · intro h; exact Or.inl h
          · intro _; exact Or.inr rfl
  · intro st messages
    unfold detect_anomalies
    by_cases ht : st.is_trained = false
    · rw [if_pos ht]
      simp [ht]
    · rw [if_neg ht]
      refine iff_of_false ?_ ht
      split
      · simp
      · simp [notTrainedErr]

/-- Claim C5 witness: the insufficient-data guard on an empty training set
leaves the fresh state untouched, and detection on the fresh (untrained)
state raises the not-trained error. -/
theorem c5_training_guards_witness :
    train lib0 initState [] = (initState, .error insufficientErr) ∧
    detect_anomalies initState [] = .error notTrainedErr :=
  ⟨c5_training_guards.1 lib0 initState [] (by decide),
   (c5_training_guards.2.2.2.2 initState []).mpr rfl⟩

/-- A concrete fitted scaler (used in counterexample states). -/
def scalerA : ScalerM := ⟨fun _ => [0]⟩

/-- A second concrete fitted scaler, distinguishable from scalerA. -/
def scalerB : ScalerM := ⟨fun _ => [1]⟩

/-- A concrete fitted forest. -/
def forestA : ForestM := ⟨fun _ => 0⟩

/-- A detector state left by one successful earlier train. -/
def trainedStateA : DetectorState :=
  { vectorizer := some 0, scaler := some scalerA, forest := some forestA,
    is_trained := true }

/-- A library behavior whose vectorizer and scaler fits succeed but whose
forest fit raises (as sklearn does when the scaled features hold NaN). -/
def libFailForest : SkLib :=
  { vecFit := fun _ => .ok 1,
    scalerFit := fun _ => .ok scalerB,
    forestFit := fun _ => .error "Input contains NaN" }

/-- Ten identical well-formed messages (enough to pass the size guard). -/
def msgs10 : List Msg := List.replicate 10 { text := "hello".toList }

/-- Claim C4 counterexample: a second fit that fails in its last step does
not leave the previously trained state untouched: the refit replaces the
vectorizer and the scaler but keeps the old forest, with the trained flag
still true, so a partially-updated model (new normalization paired with the
old ensemble) is observable by inference. -/
theorem c4_counterexample_partial_refit :
    (train libFailForest trainedStateA msgs10).2 =
      .error (.libError "Input contains NaN") ∧
    (train libFailForest trainedStateA msgs10).1.scaler = some scalerB ∧
    (train libFailForest trainedStateA msgs10).1.forest = some forestA ∧
    (train libFailForest trainedStateA msgs10).1.is_trained = true ∧
    (train libFailForest trainedStateA msgs10).1 ≠ trainedStateA := by
  refine ⟨rfl, rfl, rfl, rfl, fun h => ?_⟩
  have hv : (train libFailForest trainedStateA msgs10).1.vectorizer = some 1 := rfl
  rw [h] at hv
  exact absurd hv (by decide)

/-- Claim C4 (amended): the trained flag becomes true exactly when the fit
succeeds or the model was already trained; a failed fit leaves the forest
and the trained flag untouched but may already have replaced the vectorizer
and the scaler; and the state a successful fit produces is independent of
the prior state, so a successful second fit does replace the trained state
wholesale. -/
theorem c4_trained_flag_and_refit :
    (∀ (lib : SkLib) (st : DetectorState) (messages : List Msg),
      ((train lib st messages).1.is_trained = true ↔
        (st.is_trained = true ∨ (train lib st messages).2 = .ok ()))) ∧
    (∀ (lib : SkLib) (st : DetectorState) (messages : List Msg) (e : PyErr),
      (train lib st messages).2 = .error e →
        (train lib st messages).1.forest = st.forest ∧
        (train lib st messages).1.is_trained = st.is_trained) ∧
    (∀ (lib : SkLib) (st st' : DetectorState) (messages : List Msg),
      (train lib st messages).2 = .ok () →
        train lib st' messages = train lib st messages) := by
  refine ⟨?_, ?_, ?_⟩
  · intro lib st messages
    by_cases hlen : messages.length < 10
    · simp [train, hlen]
    · unfold train
      rw [if_neg hlen]
      split
      · simp
      · split
        · simp
        · split
          · simp
          · simp
  · intro lib st messages e
    by_cases hlen : messages.length < 10
    · intro _
      simp [train, hlen]
    · unfold train
      rw [if_neg hlen]
      split
      · intro _; exact ⟨rfl, rfl⟩
      · split
        · intro _; exact ⟨rfl, rfl⟩
        · split
          · intro _; exact ⟨rfl, rfl⟩
          · intro h; exact absurd h (by simp)
  · intro lib st st' messages h
    by_cases hlen : messages.length < 10
    · unfold train at h
      rw [if_pos hlen] at h
      exact absurd h (by simp [insufficientErr])
    · unfold train at h ⊢
      simp only [if_neg hlen] at h ⊢
      rcases hv : lib.vecFit (messages.map fun m => m.text) with e | vec
      · simp only [hv] at h
        exact absurd h (by simp)
      · simp only [hv] at h ⊢
        rcases hs : lib.scalerFit (extract_features messages) with e | sc
        · simp only [hs] at h
          exact absurd h (by simp)
        · simp only [hs] at h ⊢
          rcases hf : lib.forestFit ((extract_features messages).map sc.transformRow) with e | f
          · simp only [hf] at h
            exact absurd h (by simp)
          · simp only [hf]

/-- Claim C4 witness for the amended statement: the failing refit of the
counterexample keeps the old forest and the old trained flag. -/
theorem c4_trained_flag_and_refit_witness :
    (train libFailForest trainedStateA msgs10).1.forest = trainedStateA.forest ∧
    (train libFailForest trainedStateA msgs10).1.is_trained = trainedStateA.is_trained :=
  c4_trained_flag_and_refit.2.1 libFailForest trainedStateA msgs10
    (.libError "Input contains NaN") rfl

/-- A concrete fitted scaler projecting a row to its text length (used to
instantiate detection theorems). -/
def scalerLen : ScalerM := ⟨fun row => [(row.text_length : ℚ)]⟩

/-- A concrete fitted forest scoring a row by the negation of its first
coordinate. -/
def forestNegHead : ForestM := ⟨fun x => -(x.headD 0)⟩

/-- A concrete trained detector state. -/
def stT : DetectorState :=
  { vectorizer := some 0, scaler := some scalerLen, forest := some forestNegHead,
    is_trained := true }

/-- Claim C10: in every result record of a successful detection, is_anomaly
holds iff the anomaly score is strictly negative, iff the reported risk
level is MEDIUM or HIGH; risk level LOW coincides exactly with is_anomaly
false. -/
theorem c10_result_coherence (st : DetectorState) (messages : List Msg)
    (rs : List ResultRec) (r : ResultRec)
    (hok : detect_anomalies st messages = .ok rs) (hmem : r ∈ rs) :
    (r.is_anomaly = true ↔ r.anomaly_score < 0) ∧
    (r.is_anomaly = true ↔ (r.risk_level = "MEDIUM" ∨ r.risk_level = "HIGH")) ∧
    (r.risk_level = "LOW" ↔ r.is_anomaly = false) := by
  unfold detect_anomalies at hok
  by_cases ht : st.is_trained = false
  · rw [if_pos ht] at hok
    exact absurd hok (by simp)
  · rw [if_neg ht] at hok
    rcases hsc : st.scaler with _ | sc <;> rcases hf : st.forest with _ | f <;>
      simp only [hsc, hf] at hok
    · exact absurd hok (by simp)
    · exact absurd hok (by simp)
    · exact absurd hok (by simp)
    · have hrs : sortResults (resultsInOrder sc f messages) = rs := Except.ok.inj hok
      subst hrs
      have hmem' : r ∈ resultsInOrder sc f messages :=
        (List.Perm.mem_iff (List.perm_insertionSort _ _)).mp hmem
      rcases List.mem_map.mp hmem' with ⟨p, _, hmk⟩
      subst hmk
      unfold mkResult predictLabel anomaly_get_risk_level
      by_cases hd : f.decision (sc.transformRow (featureRow p.2)) < 0
      · by_cases hd2 : f.decision (sc.transformRow (featureRow p.2)) < -(2/10) <;>
          refine ⟨?_, ?_, ?_⟩ <;> simp [hd, hd2]
      · have hd2 : ¬(f.decision (sc.transformRow (featureRow p.2)) < -(2/10)) :=
          fun hlt => hd (by linarith)
        refine ⟨?_, ?_, ?_⟩ <;> simp [hd, hd2]

/-- Claim C10 witness: the coherence applied to the single result produced
by the concrete trained state on a one-message batch (score -1, anomalous,
level HIGH). -/
theorem c10_result_coherence_witness :
    ((mkResult scalerLen forestNegHead 0 { text := "a".toList }).is_anomaly = true ↔
      (mkResult scalerLen forestNegHead 0 { text := "a".toList }).anomaly_score < 0) ∧
    ((mkResult scalerLen forestNegHead 0 { text := "a".toList }).is_anomaly = true ↔
      ((mkResult scalerLen forestNegHead 0 { text := "a".toList }).risk_level = "MEDIUM" ∨
       (mkResult scalerLen forestNegHead 0 { text := "a".toList }).risk_level = "HIGH")) ∧
    ((mkResult scalerLen forestNegHead 0 { text := "a".toList }).risk_level = "LOW" ↔
      (mkResult scalerLen forestNegHead 0 { text := "a".toList }).is_anomaly = false) :=
  c10_result_coherence stT [{ text := "a".toList }] _ _ rfl
    ((List.Perm.mem_iff (List.perm_insertionSort _ _)).mpr (List.mem_singleton.mpr rfl))

/-- Counterexample input: stream position 0, text of length 1 (score -1). -/
def m0 : Msg := { id := some 0, text := "a".toList }

/-- Counterexample input: stream position 1, text of length 2 (score -2). -/
def m1 : Msg := { id := some 1, text := "ab".toList }

/-- Claim C3 counterexample: on the concrete trained state whose score is
the negated text length, a batch [m0, m1] comes back in the order [1, 0]:
detect_anomalies sorts its results by anomaly score as a built-in side
effect, so the output is not in input order. -/
theorem c3_counterexample_implicit_sort :
    (detect_anomalies stT [m0, m1]).map (fun rs => rs.map (fun r => r.message_id)) =
      .ok [1, 0] ∧
    (detect_anomalies stT [m0, m1]).map (fun rs => rs.map (fun r => r.message_id)) ≠
      .ok [0, 1] := by
  have h1 : (detect_anomalies stT [m0, m1]).map
      (fun rs => rs.map (fun r => r.message_id)) = .ok [1, 0] := rfl
  refine ⟨h1, ?_⟩
  rw [h1]
  simp

/-- Claim C3 (amended): detect_anomalies returns exactly one result per
input message, but sorted ascending by anomaly score (most anomalous first)
as a built-in final step of the method, so the output is a permutation of
the per-message results in input order, not that order itself. -/
theorem c3_batch_order (st : DetectorState) (messages : List Msg)
    (rs : List ResultRec) (hok : detect_anomalies st messages = .ok rs) :
    rs.length = messages.length ∧
    List.Sorted (fun a b => a.anomaly_score ≤ b.anomaly_score) rs ∧
    ∃ sc f, st.scaler = some sc ∧ st.forest = some f ∧
      rs.Perm (resultsInOrder sc f messages) := by
  unfold detect_anomalies at hok
  by_cases ht : st.is_trained = false
  · rw [if_pos ht] at hok
    exact absurd hok (by simp)
  · rw [if_neg ht] at hok
    rcases hsc : st.scaler with _ | sc <;> rcases hf : st.forest with _ | f <;>
      simp only [hsc, hf] at hok
    · exact absurd hok (by simp)
    · exact absurd hok (by simp)
    · exact absurd hok (by simp)
    · have hrs : sortResults (resultsInOrder sc f messages) = rs := Except.ok.inj hok
      subst hrs
      have hperm : (sortResults (resultsInOrder sc f messages)).Perm
          (resultsInOrder sc f messages) := List.perm_insertionSort _ _
      refine ⟨?_, ?_, sc, f, rfl, rfl, hperm⟩
      · rw [hperm.length_eq]
        simp [resultsInOrder]
      · haveI : IsTotal ResultRec (fun a b => a.anomaly_score ≤ b.anomaly_score) :=
          ⟨fun a b => le_total _ _⟩
        haveI : IsTrans ResultRec (fun a b => a.anomaly_score ≤ b.anomaly_score) :=
          ⟨fun _ _ _ hab hbc => le_trans hab hbc⟩
        exact List.sorted_insertionSort _ _

/-- Claim C3 witness for the amended statement: the two-message batch of the
counterexample has two results, sorted by score, a permutation of the
in-order results. -/
theorem c3_batch_order_witness :
    (sortResults (resultsInOrder scalerLen forestNegHead [m0, m1])).length =
      [m0, m1].length ∧
    List.Sorted (fun a b => a.anomaly_score ≤ b.anomaly_score)
      (sortResults (resultsInOrder scalerLen forestNegHead [m0, m1])) ∧
    ∃ sc f, stT.scaler = some sc ∧ stT.forest = some f ∧
      (sortResults (resultsInOrder scalerLen forestNegHead [m0, m1])).Perm
        (resultsInOrder sc f [m0, m1]) :=
  c3_batch_order stT [m0, m1] _ rfl

/-- Channel counterexample input: matches price_manipulation, score -13. -/
def mP : Msg := { id := some 0, text := "special price".toList }

/-- Channel counterexample input: matches urgency, score -6. -/
def mU : Msg := { id := some 1, text := "urgent".toList }

/-- Channel counterexample input: no categories, score -5. -/
def mH1 : Msg := { id := some 2, text := "hello".toList }

/-- Channel counterexample input: no categories, score -5. -/
def mH2 : Msg := { id := some 3, text := "howdy".toList }

/-- Channel counterexample input: no categories, score -5. -/
def mH3 : Msg := { id := some 4, text := "salut".toList }

/-- The five counterexample messages of one channel. -/
def chMsgs : List Msg := [mP, mU, mH1, mH2, mH3]

/-- Claim C6 counterexample: in the channel [mP, mU, hellos], the
price_manipulation and urgency categories tie at one occurrence each, and
the output ranks price_manipulation first because the tie is broken by the
order of first occurrence in the score-sorted results (mP sorts first on
score -13), not by registry order, which lists urgency before
price_manipulation. -/
theorem c6_counterexample_tie_order :
    (analyze_channel_behavior stT [("c", chMsgs)]).map
        (fun l => l.map (fun p => (p.1, p.2.top_patterns))) =
      .ok [("c", [("price_manipulation", 1), ("urgency", 1)])] ∧
    [("price_manipulation", (1 : Nat)), ("urgency", 1)] ≠
      [("urgency", 1), ("price_manipulation", 1)] :=
  ⟨rfl, by decide⟩

/-- Counter lookup in the insertion-ordered association list. -/
def lookupCnt (k : String) : List (String × Nat) → Option Nat
  | [] => none
  | (k', n) :: t => if k' = k then some n else lookupCnt k t

/-- Bumping a key increments exactly its counter (absent keys start at 0). -/
theorem lookupCnt_bump_same (k : String) :
    ∀ l, lookupCnt k (bump k l) = some ((lookupCnt k l).getD 0 + 1)
  | [] => by simp [bump, lookupCnt]
  | (k', n) :: t => by
    by_cases h : k' = k
    · subst h
      simp [bump, lookupCnt]
    · simp [bump, lookupCnt, h, lookupCnt_bump_same k t]

/-- Bumping a key leaves every other counter unchanged. -/
theorem lookupCnt_bump_other {k k' : String} (hne : k' ≠ k) :
    ∀ l, lookupCnt k' (bump k l) = lookupCnt k' l
  | [] => by
    have hne2 : ¬(k = k') := fun h => hne h.symm
    simp [bump, lookupCnt, hne2]
  | (k'', n) :: t => by
    by_cases h : k'' = k
    · subst h
      have hne2 : ¬(k'' = k') := fun h => hne h.symm
      simp [bump, lookupCnt, hne2]
    · simp only [bump, if_neg h, lookupCnt]
      by_cases h2 : k'' = k'
      · simp [h2]
      · simp [h2, lookupCnt_bump_other hne t]

/-- A key occurs in the bumped list iff it occurs already or is the bumped
key. -/
theorem mem_keys_bump {q k : String} :
    ∀ l, (q ∈ (bump k l).map Prod.fst ↔ (q ∈ l.map Prod.fst ∨ q = k))
  | [] => by simp [bump]
  | (k', n) :: t => by
    by_cases h : k' = k
    · subst h
      simp only [bump, eq_self_iff_true, if_true, List.map_cons, List.mem_cons]
      tauto
    · simp only [bump]
      rw [if_neg h]
      simp only [List.map_cons, List.mem_cons]
      rw [mem_keys_bump t]
      tauto

/-- Bumping preserves distinctness of the keys. -/
theorem keys_nodup_bump {k : String} :
    ∀ {l}, (l.map Prod.fst).Nodup → ((bump k l).map Prod.fst).Nodup
  | [], _ => by simp [bump]
  | (k', n) :: t, h => by
    rw [List.map_cons, List.nodup_cons] at h
    by_cases hk : k' = k
    · subst hk
      simp only [bump, eq_self_iff_true, if_true, List.map_cons, List.nodup_cons]
      exact h
    · simp only [bump]
      rw [if_neg hk]
      simp only [List.map_cons, List.nodup_cons]
      refine ⟨fun hc => ?_, keys_nodup_bump h.2⟩
      rcases (mem_keys_bump t).mp hc with hin | heq
      · exact h.1 hin
      · exact hk heq

/-- With distinct keys, membership determines the lookup. -/
theorem lookupCnt_of_mem {k : String} {n : Nat} :
    ∀ {l}, (l.map Prod.fst).Nodup → (k, n) ∈ l → lookupCnt k l = some n
  | [], _, hmem => absurd hmem (by simp)
  | (k', m) :: t, hnd, hmem => by
    rw [List.map_cons, List.nodup_cons] at hnd
    rcases List.mem_cons.mp hmem with heq | htail
    · obtain ⟨h1, h2⟩ := Prod.ext_iff.mp heq
      subst h1
      subst h2
      simp [lookupCnt]
    · have hne : k' ≠ k := by
        intro hkk
        subst hkk
        exact hnd.1 (List.mem_map.mpr ⟨(k', n), htail, rfl⟩)
      simp only [lookupCnt, if_neg hne]
      exact lookupCnt_of_mem hnd.2 htail

/-- Folding bump over a word list adds, for every key, exactly its number
of occurrences; the counter remains absent exactly when the key was absent
and does not occur. -/
theorem lookupCnt_foldl_bump (k : String) :
    ∀ (xs : List String) (acc : List (String × Nat)),
      ((lookupCnt k (xs.foldl (fun a p => bump p a) acc)).getD 0 =
        (lookupCnt k acc).getD 0 + xs.count k) ∧
      ((lookupCnt k (xs.foldl (fun a p => bump p a) acc)) = none ↔
        (lookupCnt k acc = none ∧ xs.count k = 0))
  | [], acc => by simp
  | x :: xs, acc => by
    have ih := lookupCnt_foldl_bump k xs (bump x acc)
    rw [List.foldl_cons]
    by_cases hx : x = k
    · subst hx
      refine ⟨?_, ?_⟩
      · rw [ih.1, lookupCnt_bump_same, List.count_cons_self]
        simp
        omega
      · rw [ih.2, lookupCnt_bump_same]
        simp
    · have hkx : k ≠ x := fun h => hx h.symm
      refine ⟨?_, ?_⟩
      · rw [ih.1, lookupCnt_bump_other hkx, List.count_cons_of_ne hkx]
      · rw [ih.2, lookupCnt_bump_other hkx, List.count_cons_of_ne hkx]

/-- Folding bump preserves distinctness of the keys. -/
theorem keys_nodup_foldl_bump :
    ∀ (xs : List String) (acc : List (String × Nat)),
      (acc.map Prod.fst).Nodup →
      ((xs.foldl (fun a p => bump p a) acc).map Prod.fst).Nodup
  | [], _, h => h
  | x :: xs, acc, h => by
    rw [List.foldl_cons]
    exact keys_nodup_foldl_bump xs (bump x acc) (keys_nodup_bump h)

/-- The pattern-frequency dict is the bump-fold over the flattened
suspicious-pattern lists of the results. -/
theorem patternCounts_eq_flatten (rs : List ResultRec) :
    patternCounts rs =
      ((rs.map (fun r => r.suspicious_patterns)).flatten).foldl
        (fun a p => bump p a) [] := by
  rw [List.foldl_flatten, List.foldl_map]
  rfl

/-- Every entry of the pattern-frequency dict carries exactly the total
occurrence count of its category across the results, and that count is
positive. -/
theorem patternCounts_spec (rs : List ResultRec) (k : String) (n : Nat)
    (hmem : (k, n) ∈ patternCounts rs) :
    n = ((rs.map (fun r => r.suspicious_patterns)).flatten).count k ∧ 0 < n := by
  rw [patternCounts_eq_flatten] at hmem
  have hnd := keys_nodup_foldl_bump
    ((rs.map (fun r => r.suspicious_patterns)).flatten) [] (by simp)
  have hlk := lookupCnt_of_mem hnd hmem
  have hfold := lookupCnt_foldl_bump k
    ((rs.map (fun r => r.suspicious_patterns)).flatten) []
  have hn : n = ((rs.map (fun r => r.suspicious_patterns)).flatten).count k := by
    have := hfold.1
    rw [hlk] at this
    simpa [lookupCnt] using this
  refine ⟨hn, ?_⟩
  rcases Nat.eq_zero_or_pos n with h0 | hpos
  · exfalso
    have hcount0 : ((rs.map (fun r => r.suspicious_patterns)).flatten).count k = 0 := by
      rw [← hn]
      exact h0
    have : lookupCnt k
        (((rs.map (fun r => r.suspicious_patterns)).flatten).foldl
          (fun a p => bump p a) []) = none :=
      hfold.2.mpr ⟨by simp [lookupCnt], hcount0⟩
    rw [hlk] at this
    exact Option.some_ne_none n this
  · exact hpos

/-- Every entry of the channel analysis comes from a channel of the input
dictionary with at least 5 messages, whose detection succeeded, and its
stats record is built by mkStats from those messages and results. -/
theorem analyze_mem (st : DetectorState) :
    ∀ (chans : List (String × List Msg)) (out : List (String × ChannelStats))
      (ch : String) (stats : ChannelStats),
      analyze_channel_behavior st chans = .ok out → (ch, stats) ∈ out →
      ∃ messages rs, (ch, messages) ∈ chans ∧ ¬(messages.length < 5) ∧
        detect_anomalies st messages = .ok rs ∧ stats = mkStats messages rs
  | [], out, ch, stats, hok, hmem => by
    have hout : ([] : List (String × ChannelStats)) = out := Except.ok.inj hok
    subst hout
    exact absurd hmem (by simp)
  | (ch', msgs') :: rest, out, ch, stats, hok, hmem => by
    unfold analyze_channel_behavior at hok
    by_cases h5 : msgs'.length < 5
    · rw [if_pos h5] at hok
      obtain ⟨messages, rs, hin, hlen, hd, hst⟩ :=
        analyze_mem st rest out ch stats hok hmem
      exact ⟨messages, rs, List.mem_cons_of_mem _ hin, hlen, hd, hst⟩
    · rw [if_neg h5] at hok
      rcases hd : detect_anomalies st msgs' with e | anomalies
      · rw [hd] at hok
        exact absurd hok (by simp)
      · rw [hd] at hok
        rcases ha : analyze_channel_behavior st rest with e | out'
        · rw [ha] at hok
          exact absurd hok (by simp)
        · rw [ha] at hok
          have hout : (ch', mkStats msgs' anomalies) :: out' = out :=
            Except.ok.inj hok
          subst hout
          rcases List.mem_cons.mp hmem with heq | htail
          · have hch : ch = ch' := congrArg Prod.fst heq
            have hst : stats = mkStats msgs' anomalies := congrArg Prod.snd heq
            refine ⟨msgs', anomalies, ?_, h5, hd, hst⟩
            rw [hch]
            exact List.mem_cons_self _ _
          · obtain ⟨messages, rs, hin, hlen, hdet, hst⟩ :=
              analyze_mem st rest out' ch stats ha htail
            exact ⟨messages, rs, List.mem_cons_of_mem _ hin, hlen, hdet, hst⟩

/-- Inserting an element that is related to every selected element lands in
front of the whole selected subsequence (it can skip only unselected
elements). -/
theorem filter_orderedInsert_pos {α : Type} (r : α → α → Prop) [DecidableRel r]
    (q : α → Bool) (x : α) :
    ∀ l, (∀ y ∈ l, q y = true → r x y) → q x = true →
      (List.orderedInsert r x l).filter q = x :: l.filter q
  | [], _, hx => by simp [hx]
  | y :: t, hq, hx => by
    by_cases hr : r x y
    · simp only [List.orderedInsert, if_pos hr]
      simp [hx]
    · have hqy : q y = false := by
        rcases hy : q y with _ | _
        · rfl
        · exact absurd (hq y (by simp) hy) hr
      simp only [List.orderedInsert, if_neg hr, List.filter_cons, hqy]
      exact filter_orderedInsert_pos r q x t
        (fun z hz hqz => hq z (List.mem_cons_of_mem _ hz) hqz) hx

/-- Inserting an unselected element leaves the selected subsequence
unchanged. -/
theorem filter_orderedInsert_neg {α : Type} (r : α → α → Prop) [DecidableRel r]
    (q : α → Bool) (x : α) :
    ∀ l, q x = false → (List.orderedInsert r x l).filter q = l.filter q
  | [], hx => by simp [hx]
  | y :: t, hx => by
    by_cases hr : r x y
    · simp only [List.orderedInsert, if_pos hr]
      simp [hx]
    · simp only [List.orderedInsert, if_neg hr, List.filter_cons]
      rcases hy : q y with _ | _ <;>
        simp [filter_orderedInsert_neg r q x t hx]

/-- Stability of the insertion sort: the subsequence of any tie class
(elements pairwise related to each other) is exactly its subsequence in the
input, in input order.  This is the formal counterpart of the stability of
Python's sort: ties keep their original relative order. -/
theorem filter_insertionSort {α : Type} (r : α → α → Prop) [DecidableRel r]
    (q : α → Bool) (hq : ∀ a b, q a = true → q b = true → r a b) :
    ∀ l, (List.insertionSort r l).filter q = l.filter q
  | [] => rfl
  | x :: t => by
    simp only [List.insertionSort]
    rcases hx : q x with _ | _
    · rw [filter_orderedInsert_neg r q x _ hx, filter_insertionSort r q hq t]
      simp [List.filter_cons, hx]
    · have hcond : ∀ y ∈ List.insertionSort r t, q y = true → r x y :=
        fun y _ hqy => hq x y hx hqy
      rw [filter_orderedInsert_pos r q x _ hcond hx, filter_insertionSort r q hq t]
      simp [List.filter_cons, hx]

/-- The selected subsequence of a take-prefix is a take-prefix of the
selected subsequence. -/
theorem filter_take_eq_take_filter {α : Type} (q : α → Bool) (l : List α)
    (m : Nat) :
    ∃ k, (l.take m).filter q = (l.filter q).take k := by
  refine ⟨((l.take m).filter q).length, ?_⟩
  have h2 : l.filter q = (l.take m).filter q ++ (l.drop m).filter q := by
    rw [← List.filter_append, List.take_append_drop]
  rw [h2, List.take_left]

/-- The distinct values of a word list, in order of first occurrence: the
key order of a Python dict filled while iterating the list. -/
def firstOccurrences (xs : List String) : List String :=
  xs.foldl (fun ks p => if p ∈ ks then ks else ks ++ [p]) []

/-- Bumping appends a fresh key at the end and leaves the key order
untouched otherwise. -/
theorem bump_keys_order (k : String) :
    ∀ l : List (String × Nat),
      (bump k l).map Prod.fst =
        if k ∈ l.map Prod.fst then l.map Prod.fst else l.map Prod.fst ++ [k]
  | [] => by simp [bump]
  | (k', n) :: t => by
    by_cases h : k' = k
    · subst h
      simp [bump]
    · have hne : ¬(k = k') := fun hh => h hh.symm
      simp only [bump, if_neg h, List.map_cons]
      rw [bump_keys_order k t]
      by_cases hin : k ∈ t.map Prod.fst
      · simp [hin, List.mem_cons, hne]
      · simp [hin, List.mem_cons, hne]

/-- The key order of the bump-fold is the first-occurrence fold of the
words. -/
theorem keys_foldl_bump_order :
    ∀ (xs : List String) (acc : List (String × Nat)),
      ((xs.foldl (fun a p => bump p a) acc).map Prod.fst) =
        xs.foldl (fun ks p => if p ∈ ks then ks else ks ++ [p]) (acc.map Prod.fst)
  | [], _ => rfl
  | x :: xs, acc => by
    rw [List.foldl_cons, List.foldl_cons, keys_foldl_bump_order xs (bump x acc),
      bump_keys_order x acc]

/-- The pattern-frequency dict lists its categories in order of first
occurrence across the flattened suspicious-pattern lists of the (score-
sorted) results. -/
theorem patternCounts_keys (rs : List ResultRec) :
    (patternCounts rs).map Prod.fst =
      firstOccurrences ((rs.map (fun r => r.suspicious_patterns)).flatten) := by
  rw [patternCounts_eq_flatten, keys_foldl_bump_order]
  rfl

/-- Claim C6 (amended): for every channel of the aggregation output,
top_patterns holds exactly min(3, number of occurring categories) pairs,
sorted by count descending; each pair is an entry of the channel's
pattern-frequency dict and carries the exact total occurrence count
(necessarily positive) of its category across the channel's score-sorted
detection results; every omitted category's count is at most every included
count (so the selection is a true top 3); ties between equal counts keep
the dict order, i.e. the order of first occurrence in the score-sorted
results (the dict's key order), which need not be category registry
order. -/
theorem c6_top_patterns (st : DetectorState) (chans : List (String × List Msg))
    (out : List (String × ChannelStats)) (ch : String) (stats : ChannelStats)
    (hok : analyze_channel_behavior st chans = .ok out)
    (hmem : (ch, stats) ∈ out) :
    stats.top_patterns.length ≤ 3 ∧
    List.Sorted (fun a b => b.2 ≤ a.2) stats.top_patterns ∧
    ∃ messages rs, (ch, messages) ∈ chans ∧
      detect_anomalies st messages = .ok rs ∧
      stats.top_patterns.length = min 3 (patternCounts rs).length ∧
      (∀ p, p ∈ stats.top_patterns → p ∈ patternCounts rs) ∧
      (∀ c n, (c, n) ∈ stats.top_patterns →
        n = ((rs.map (fun r => r.suspicious_patterns)).flatten).count c ∧ 0 < n) ∧
      (∀ p, p ∈ patternCounts rs → p ∉ stats.top_patterns →
        ∀ q, q ∈ stats.top_patterns → p.2 ≤ q.2) ∧
      (∀ n, ∃ k, stats.top_patterns.filter (fun p => p.2 == n) =
        ((patternCounts rs).filter (fun p => p.2 == n)).take k) ∧
      (patternCounts rs).map Prod.fst =
        firstOccurrences ((rs.map (fun r => r.suspicious_patterns)).flatten) := by
  obtain ⟨messages, rs, hin, _, hd, hst⟩ :=
    analyze_mem st chans out ch stats hok hmem
  subst hst
  have htop : (mkStats messages rs).top_patterns =
      (List.insertionSort (fun a b => b.2 ≤ a.2) (patternCounts rs)).take 3 := rfl
  haveI : IsTotal (String × Nat) (fun a b => b.2 ≤ a.2) :=
    ⟨fun a b => le_total b.2 a.2⟩
  haveI : IsTrans (String × Nat) (fun a b => b.2 ≤ a.2) :=
    ⟨fun _ _ _ hab hbc => le_trans hbc hab⟩
  have hsorted : List.Sorted (fun a b => b.2 ≤ a.2)
      (List.insertionSort (fun a b => b.2 ≤ a.2) (patternCounts rs)) :=
    List.sorted_insertionSort _ _
  have hperm : (List.insertionSort (fun a b => b.2 ≤ a.2) (patternCounts rs)).Perm
      (patternCounts rs) := List.perm_insertionSort _ _
  refine ⟨?_, ?_, messages, rs, hin, hd, ?_, ?_, ?_, ?_, ?_, patternCounts_keys rs⟩
  · rw [htop]
    exact List.length_take_le 3 _
  · rw [htop]
    exact List.Pairwise.sublist (List.take_sublist 3 _) hsorted
  · rw [htop, List.length_take, hperm.length_eq]
  · intro p hp
    rw [htop] at hp
    exact hperm.mem_iff.mp ((List.take_sublist 3 _).subset hp)
  · intro c n hcn
    rw [htop] at hcn
    have h2 : (c, n) ∈ patternCounts rs :=
      hperm.mem_iff.mp ((List.take_sublist 3 _).subset hcn)
    exact patternCounts_spec rs c n h2
  · intro p hpc hpnot q hq
    rw [htop] at hpnot hq
    have hps : p ∈ List.insertionSort (fun a b => b.2 ≤ a.2) (patternCounts rs) :=
      hperm.mem_iff.mpr hpc
    rw [← List.take_append_drop 3
      (List.insertionSort (fun a b => b.2 ≤ a.2) (patternCounts rs))] at hps
    rcases List.mem_append.mp hps with h1 | h2
    · exact absurd h1 hpnot
    · exact hsorted.rel_of_mem_take_of_mem_drop hq h2
  · intro n
    have hstab : (List.insertionSort (fun a b => b.2 ≤ a.2)
        (patternCounts rs)).filter (fun p => p.2 == n) =
        (patternCounts rs).filter (fun p => p.2 == n) := by
      refine filter_insertionSort _ _ (fun a b ha hb => ?_) _
      have ha2 : a.2 = n := by simpa using ha
      have hb2 : b.2 = n := by simpa using hb
      rw [ha2, hb2]
    obtain ⟨k, hk⟩ := filter_take_eq_take_filter (fun p => p.2 == n)
      (List.insertionSort (fun a b => b.2 ≤ a.2) (patternCounts rs)) 3
    refine ⟨k, ?_⟩
    rw [htop, hk, hstab]

/-- Claim C6 witness for the amended statement: the counterexample channel
instantiated; its top_patterns list has exactly min(3, category-count)
sorted entries with the true occurrence totals, dominating every omitted
category, with tie classes in dict first-occurrence order. -/
theorem c6_top_patterns_witness :
    (mkStats chMsgs (sortResults (resultsInOrder scalerLen forestNegHead chMsgs))).top_patterns.length ≤ 3 ∧
    List.Sorted (fun a b => b.2 ≤ a.2)
      (mkStats chMsgs (sortResults (resultsInOrder scalerLen forestNegHead chMsgs))).top_patterns ∧
    ∃ messages rs, ("c", messages) ∈ [("c", chMsgs)] ∧
      detect_anomalies stT messages = .ok rs ∧
      (mkStats chMsgs (sortResults (resultsInOrder scalerLen forestNegHead chMsgs))).top_patterns.length =
        min 3 (patternCounts rs).length ∧
      (∀ p, p ∈ (mkStats chMsgs (sortResults (resultsInOrder scalerLen forestNegHead chMsgs))).top_patterns →
        p ∈ patternCounts rs) ∧
      (∀ c n, (c, n) ∈ (mkStats chMsgs (sortResults (resultsInOrder scalerLen forestNegHead chMsgs))).top_patterns →
        n = ((rs.map (fun r => r.suspicious_patterns)).flatten).count c ∧ 0 < n) ∧
      (∀ p, p ∈ patternCounts rs →
        p ∉ (mkStats chMsgs (sortResults (resultsInOrder scalerLen forestNegHead chMsgs))).top_patterns →
        ∀ q, q ∈ (mkStats chMsgs (sortResults (resultsInOrder scalerLen forestNegHead chMsgs))).top_patterns →
          p.2 ≤ q.2) ∧
      (∀ n, ∃ k, (mkStats chMsgs (sortResults (resultsInOrder scalerLen forestNegHead chMsgs))).top_patterns.filter
          (fun p => p.2 == n) =
        ((patternCounts rs).filter (fun p => p.2 == n)).take k) ∧
      (patternCounts rs).map Prod.fst =
        firstOccurrences ((rs.map (fun r => r.suspicious_patterns)).flatten) :=
  c6_top_patterns stT [("c", chMsgs)] _ "c" _ rfl (List.mem_singleton.mpr rfl)
